import Mathlib

/-
Verification of the tinymock library (src/tinymock/impl.py).

The Python source is shallowly embedded as pure Lean functions:
  * Python values that appear as mock-call arguments, return values and
    raised exceptions are drawn from the small universe `Value`
    (None, ints, strings, and `AnyValue` wildcard cells).  Equality on this
    universe is structural, matching Python `==` on these types.
  * An `AnyValue` object is a mutable cell; the heap of all such cells is a
    store `AnyStore : Nat → Value` indexed by cell identity, threaded
    explicitly through the matching functions.
  * A `MockFunction` is identified by a numeric identity (Python object
    identity); `!=` on mock functions is identity comparison, embedded as
    comparison of the `id` field.
  * Raising an exception is embedded as returning an error value:
    `CallContext.call` returns a `CallResult`, `check_done` returns an
    optional error message, and `set_last_return` / `set_last_exception`
    return a `SetResult`.
-/

/-- Embedded universe of Python values used with the mock framework:
`none` is Python `None`, `int`/`str` are primitive values, and `any i` is
the `AnyValue` wildcard object whose mutable cell has identity `i`. -/
inductive Value where
  | none : Value
  | int : Int → Value
  | str : String → Value
  | any : Nat → Value
deriving DecidableEq, Repr

/-- Heap of `AnyValue` cells: cell `i` currently holds `s i`
(the `value` attribute of the `AnyValue` object with identity `i`). -/
def AnyStore : Type := Nat → Value

/-- Write `v` into `AnyValue` cell `i` (the assignment `expected.value = arg`). -/
def storeSet (s : AnyStore) (i : Nat) (v : Value) : AnyStore :=
  fun j => if j = i then v else s j

/-- A `MockFunction`, reduced to what the `CallContext` core uses: its object
identity (`id`, used by the `!=` comparisons in the source) and its `name`
(used in diagnostics). -/
structure MockFunction where
  id : Nat
  name : String
deriving DecidableEq, Repr

/-- `ExpectedCall.__init__`: container for one expected call.  `return_value`
and `exception` start as Python `None` (here `Value.none`). -/
structure ExpectedCall where
  fcn : MockFunction
  args : List Value
  kwargs : List (String × Value)
  return_value : Value := Value.none
  exception : Value := Value.none
deriving DecidableEq, Repr

/-- `CallContext.__init__`: the FIFO expectation queue (`_calls`) and the
completed-call log (`_completed_calls`). -/
structure CallContext where
  calls : List ExpectedCall
  completed_calls : List ExpectedCall
deriving DecidableEq, Repr

/-- Python `dict.__getitem__`-style lookup on an insertion-ordered
association list: the value at the first matching key. -/
def lookupVal (l : List (String × Value)) (k : String) : Option Value :=
  match l with
  | [] => Option.none
  | (k', v) :: rest => if k' = k then Option.some v else lookupVal rest k

/-- Python `set(ks1) != set(ks2)` negated: the two key lists contain the
same keys (as sets). -/
def keySetEq (a b : List String) : Bool :=
  a.all (fun k => b.contains k) && b.all (fun k => a.contains k)

/-- Python `repr` on the embedded value universe.  String escaping is not
modelled, and the address-based default repr of an `AnyValue` object is
modelled by a deterministic tag built from the cell identity. -/
def pyRepr : Value → String
  | Value.none => "None"
  | Value.int n => toString n
  | Value.str s => "'" ++ s ++ "'"
  | Value.any i => "<AnyValue " ++ toString i ++ ">"

/-- Insert a key into a list already sorted by `<`, keeping it sorted. -/
def insertSorted (x : String) : List String → List String
  | [] => [x]
  | y :: ys => if x < y then x :: y :: ys else y :: insertSorted x ys

/-- Python `sorted` on the keyword-argument keys. -/
def sortKeys (l : List String) : List String :=
  l.foldr insertSorted []

/-- `ExpectedCall.__str__`: the owning function's name, a parenthesized
comma-separated list of the positional values (in order) then the keyword
values (in sorted key order, as `k = v`), followed by ` returns X` when a
return value is set (not `None`) and ` raises X` when an exception is set.
The Python code appends string pieces to a list under a `need_comma` flag
and joins them; the two loops are embedded as folds carrying the string
built so far together with the `need_comma` flag. -/
def ExpectedCall.str (c : ExpectedCall) : String :=
  let r0 := c.fcn.name ++ "("
  let p1 := c.args.foldl
    (fun (acc : String × Bool) arg =>
      ((if acc.2 then acc.1 ++ ", " else acc.1) ++ pyRepr arg, true))
    (r0, false)
  let p2 := (sortKeys (c.kwargs.map Prod.fst)).foldl
    (fun (acc : String × Bool) k =>
      ((if acc.2 then acc.1 ++ ", " else acc.1) ++
        (k ++ " = " ++ pyRepr ((lookupVal c.kwargs k).getD Value.none)), true))
    p1
  let r1 := p2.1 ++ ")"
  let r2 := if c.return_value ≠ Value.none
    then r1 ++ " returns " ++ pyRepr c.return_value else r1
  if c.exception ≠ Value.none
    then r2 ++ " raises " ++ pyRepr c.exception else r2

/-- The diagnostic text built by `CallContext._make_exception` before the
context is reset: the message, the completed calls, the actual call (when
present), and the remaining expected calls, joined by newlines. -/
def reportText (ctx : CallContext) (message : String)
    (actual : Option ExpectedCall) : String :=
  String.intercalate "\n"
    ([message, "", "Completed calls:"]
      ++ ctx.completed_calls.map ExpectedCall.str
      ++ [""]
      ++ (match actual with
          | Option.some a => ["Actual call:", a.str, ""]
          | Option.none => [])
      ++ ["Expected calls:"]
      ++ ctx.calls.map ExpectedCall.str)

/-- `CallContext._make_exception`: renders the full report from the current
state, then resets both `_calls` and `_completed_calls` to empty; returns
the reset context paired with the exception text. -/
def makeException (ctx : CallContext) (message : String)
    (actual : Option ExpectedCall) : CallContext × String :=
  (⟨[], []⟩, reportText ctx message actual)

/-- `CallContext.expect`: append a fresh expectation at the tail. -/
def expect (ctx : CallContext) (fcn : MockFunction) (args : List Value)
    (kwargs : List (String × Value)) : CallContext :=
  { ctx with calls := ctx.calls ++ [{ fcn := fcn, args := args, kwargs := kwargs }] }

/-- `CallContext._check_last_call`: a usage-error message when the queue is
empty or the tail expectation belongs to a different mock, `none` otherwise. -/
def checkLastCall (ctx : CallContext) (fcn : MockFunction) (reason : String) :
    Option String :=
  match ctx.calls.getLast? with
  | Option.none => Option.some ("no call for which to set " ++ reason)
  | Option.some last =>
      if fcn.id ≠ last.fcn.id
        then Option.some (reason ++ " must be set immediately after expect")
        else Option.none

/-- Mutate the last element of the queue (the Python `self._calls[-1].x = v`
assignment); leaves an empty list unchanged (that case is guarded by
`checkLastCall` at every use site). -/
def setLast (l : List ExpectedCall) (f : ExpectedCall → ExpectedCall) :
    List ExpectedCall :=
  match l.getLast? with
  | Option.none => l
  | Option.some last => l.dropLast ++ [f last]

/-- Outcome of `set_last_return` / `set_last_exception`: the updated context,
or the message of the raised usage `Exception`. -/
inductive SetResult where
  | ok : CallContext → SetResult
  | usageError : String → SetResult
deriving DecidableEq, Repr

/-- `CallContext.set_last_return`. -/
def set_last_return (ctx : CallContext) (fcn : MockFunction) (v : Value) :
    SetResult :=
  match checkLastCall ctx fcn "return value" with
  | Option.some msg => SetResult.usageError msg
  | Option.none =>
      SetResult.ok { ctx with calls := setLast ctx.calls (fun c => { c with return_value := v }) }

/-- `CallContext.set_last_exception`. -/
def set_last_exception (ctx : CallContext) (fcn : MockFunction) (v : Value) :
    SetResult :=
  match checkLastCall ctx fcn "exception" with
  | Option.some msg => SetResult.usageError msg
  | Option.none =>
      SetResult.ok { ctx with calls := setLast ctx.calls (fun c => { c with exception := v }) }

/-- `CallContext._arg_mismatch`: an `AnyValue` wildcard captures the actual
argument into its cell and never mismatches; any other expected value
mismatches iff `not expected == arg`. -/
def argMismatch (store : AnyStore) (expected arg : Value) : AnyStore × Bool :=
  match expected with
  | Value.any i => (storeSet store i arg, false)
  | e => (store, decide (¬ e = arg))

/-- The positional-argument loop of `CallContext.call`: compares every
position (no early exit), accumulating the mismatch flag and threading the
wildcard store.  Only invoked with lists of equal length. -/
def matchArgs (store : AnyStore) (mismatch : Bool) :
    List Value → List Value → AnyStore × Bool
  | [], _ => (store, mismatch)
  | _ :: _, [] => (store, mismatch)
  | e :: es, a :: as_ =>
    let p := argMismatch store e a
    matchArgs p.1 (mismatch || p.2) es as_

/-- The keyword-argument loop of `CallContext.call`: iterates over the actual
call's keyword entries, comparing each against the expectation's value at the
same key.  Only invoked after the key sets were found equal, so the lookup
always succeeds; the `getD Value.none` default is unreachable (Python would
raise `KeyError` there). -/
def matchKwargs (ekw : List (String × Value)) (store : AnyStore) (mismatch : Bool) :
    List (String × Value) → AnyStore × Bool
  | [] => (store, mismatch)
  | (k, v) :: rest =>
    let p := argMismatch store ((lookupVal ekw k).getD Value.none) v
    matchKwargs ekw p.1 (mismatch || p.2) rest

/-- Outcome of `CallContext.call`: a normal return (`ret`), a declared
exception propagated to the caller (`raised`), or a raised `MockException`
carrying its full diagnostic text (`mockError`). -/
inductive CallResult where
  | ret : Value → CallResult
  | raised : Value → CallResult
  | mockError : String → CallResult
deriving DecidableEq, Repr

/-- `CallContext.call`: match an actual invocation against the head of the
expectation queue, in the source's order of checks.  Returns the new context,
the new wildcard store, and the call's outcome. -/
def call (ctx : CallContext) (store : AnyStore) (fcn : MockFunction)
    (args : List Value) (kwargs : List (String × Value)) :
    CallContext × AnyStore × CallResult :=
  let actual_call : ExpectedCall := { fcn := fcn, args := args, kwargs := kwargs }
  match ctx.calls with
  | [] =>
      ((makeException ctx "Unexpected call" (Option.some actual_call)).1, store,
        CallResult.mockError (makeException ctx "Unexpected call" (Option.some actual_call)).2)
  | c :: rest =>
    if c.fcn.id ≠ fcn.id then
      ((makeException ctx "Wrong call" (Option.some actual_call)).1, store,
        CallResult.mockError (makeException ctx "Wrong call" (Option.some actual_call)).2)
    else
      let ap := if c.args.length ≠ args.length
        then (store, true)
        else matchArgs store false c.args args
      if ap.2 then
        ((makeException ctx "Argument mismatch" (Option.some actual_call)).1, ap.1,
          CallResult.mockError (makeException ctx "Argument mismatch" (Option.some actual_call)).2)
      else
        let kp := if ¬ keySetEq (c.kwargs.map Prod.fst) (kwargs.map Prod.fst)
          then (ap.1, true)
          else matchKwargs c.kwargs ap.1 false kwargs
        if kp.2 then
          ((makeException ctx "Keyword argument mismatch" (Option.some actual_call)).1, kp.1,
            CallResult.mockError (makeException ctx "Keyword argument mismatch" (Option.some actual_call)).2)
        else
          let ctx' : CallContext := ⟨rest, ctx.completed_calls ++ [c]⟩
          if c.exception ≠ Value.none then (ctx', kp.1, CallResult.raised c.exception)
          else (ctx', kp.1, CallResult.ret c.return_value)

/-- `CallContext.check_done`: succeeds (returns `none`) iff the queue is
empty; otherwise builds the unmet-expectations report, resets the context,
and fails with the report text. -/
def check_done (ctx : CallContext) : CallContext × Option String :=
  if ctx.calls.length ≠ 0 then
    ((makeException ctx "Still expecting more function calls" Option.none).1,
      Option.some (makeException ctx "Still expecting more function calls" Option.none).2)
  else (ctx, Option.none)

/-- Instance `__dict__` of a plain Python object (or module): an
insertion-ordered association of field names to values. -/
def Dict : Type := List (String × Value)

/-- Python `obj.__dict__.get(field)`: `None` when the field is absent (note
that this conflates an absent field with a field whose value is `None`). -/
def dictGet (d : Dict) (field : String) : Value :=
  match lookupVal d field with
  | Option.some v => v
  | Option.none => Value.none

/-- Python `setattr(obj, field, value)` on a plain object: update the
existing entry in place, or append a new one. -/
def setattrD : Dict → String → Value → Dict
  | [], f, v => [(f, v)]
  | (k, w) :: rest, f, v =>
      if k = f then (k, v) :: rest else (k, w) :: setattrD rest f v

/-- Python `delattr(obj, field)` on a plain object: remove the entry.
(On the `Patch.__exit__` path the field is always present, since
`__enter__` just set it.) -/
def delattrD : Dict → String → Dict
  | [], _ => []
  | (k, w) :: rest, f =>
      if k = f then rest else (k, w) :: delattrD rest f

/-- `Patch.__enter__`: read the previous raw value via `__dict__.get`
(yielding `None` when the field is absent), then install the replacement.
Returns the updated dict and the saved `_prev_value`. -/
def patchEnter (d : Dict) (field : String) (value : Value) : Dict × Value :=
  let prev := dictGet d field
  (setattrD d field value, prev)

/-- `Patch.__exit__`: delete the field when the saved previous value is
`None`, otherwise set the field back to the saved value. -/
def patchExit (d : Dict) (field : String) (prev : Value) : Dict :=
  if prev = Value.none then delattrD d field else setattrD d field prev

/-
Claim-side (specification) definitions.  These restate, in declarative form,
what the claims say; the theorems below relate them to the embedded source
functions above.
-/

/-- Whether one expected/actual argument pair mismatches, as the claims state
it: a wildcard never mismatches, any other expected value mismatches iff it
is unequal to the actual.  This is the (store-free) mismatch flag of
`argMismatch`. -/
def argBadB (e a : Value) : Bool :=
  match e with
  | Value.any _ => false
  | e' => decide (¬ e' = a)

/-- Declarative positional mismatch over two equal-length argument lists:
some position holds a non-wildcard expected value unequal to the actual. -/
def anyArgsBad : List Value → List Value → Bool
  | [], _ => false
  | _ :: _, [] => false
  | e :: es, a :: as_ => argBadB e a || anyArgsBad es as_

/-- Declarative mismatch of one actual keyword entry against the
expectation's keyword mapping. -/
def kwBadB (ekw : List (String × Value)) (kv : String × Value) : Bool :=
  argBadB ((lookupVal ekw kv.1).getD Value.none) kv.2

/-- Claim-side positional-mismatch condition: the positional-argument count
differs, or some non-wildcard positional value is unequal. -/
def posMismatchB (e : ExpectedCall) (args : List Value) : Bool :=
  decide (e.args.length ≠ args.length) || anyArgsBad e.args args

/-- Claim-side keyword-mismatch condition: the keyword key-sets differ, or
some non-wildcard keyword value is unequal. -/
def kwMismatchB (e : ExpectedCall) (kwargs : List (String × Value)) : Bool :=
  !keySetEq (e.kwargs.map Prod.fst) (kwargs.map Prod.fst)
    || kwargs.any (kwBadB e.kwargs)

/-- Claim-side comma-separated join (the "parenthesized list" wording of the
rendering claim). -/
def specJoin : List String → String
  | [] => ""
  | [x] => x
  | x :: y :: xs => x ++ ", " ++ specJoin (y :: xs)

/-- Claim-side rendering of one call, following the claim's words: the owning
mock's name, a parenthesized comma-separated list of the positional values in
declaration order followed by the keyword values in sorted key order, then
` returns X` if a return value is set and ` raises X` if an exception is set. -/
def specRender (c : ExpectedCall) : String :=
  c.fcn.name ++ "("
    ++ specJoin (c.args.map pyRepr
        ++ (sortKeys (c.kwargs.map Prod.fst)).map
            (fun k => k ++ " = " ++ pyRepr ((lookupVal c.kwargs k).getD Value.none)))
    ++ ")"
    ++ (if c.return_value ≠ Value.none then " returns " ++ pyRepr c.return_value else "")
    ++ (if c.exception ≠ Value.none then " raises " ++ pyRepr c.exception else "")

/-- One declared expectation in a scripted scenario: its expected arguments
and its (optionally) declared return value and exception, `Value.none`
standing for "not declared" exactly as in the source. -/
structure CallSpec where
  args : List Value
  kwargs : List (String × Value)
  retVal : Value := Value.none
  excVal : Value := Value.none
deriving DecidableEq, Repr

/-- The `ExpectedCall` that declaring `spec` on mock `f` produces. -/
def toCall (f : MockFunction) (s : CallSpec) : ExpectedCall :=
  { fcn := f, args := s.args, kwargs := s.kwargs,
    return_value := s.retVal, exception := s.excVal }

/-- The outcome the claims promise for a matching call on a declared
expectation: its declared exception is raised when one is set, otherwise its
declared return value (defaulting to no value, i.e. `None`) is returned. -/
def specOutcome (s : CallSpec) : CallResult :=
  if s.excVal ≠ Value.none then CallResult.raised s.excVal
  else CallResult.ret s.retVal

/-- Declare one expectation through the source API: `expect`, then
`set_last_return` and `set_last_exception` with the declared values
(setting `Value.none` is the source's initial state, i.e. "not declared").
The `usageError` fallbacks are dead code: immediately after `expect` both
setters succeed. -/
def declareOne (ctx : CallContext) (f : MockFunction) (s : CallSpec) :
    CallContext :=
  let ctx1 := expect ctx f s.args s.kwargs
  let ctx2 := match set_last_return ctx1 f s.retVal with
    | SetResult.ok c => c
    | SetResult.usageError _ => ctx1
  match set_last_exception ctx2 f s.excVal with
  | SetResult.ok c => c
  | SetResult.usageError _ => ctx2

/-- Declare a whole scripted scenario on one mock, in order, starting from a
fresh context. -/
def declareAll (f : MockFunction) (specs : List CallSpec) : CallContext :=
  specs.foldl (fun ctx s => declareOne ctx f s) ⟨[], []⟩

/-- Perform a sequence of invocations through `call`, collecting each
outcome. -/
def runCalls (ctx : CallContext) (store : AnyStore) :
    List (MockFunction × List Value × List (String × Value)) →
      CallContext × AnyStore × List CallResult
  | [] => (ctx, store, [])
  | (f, a, k) :: rest =>
    let r := call ctx store f a k
    let rs := runCalls r.1 r.2.1 rest
    (rs.1, rs.2.1, r.2.2 :: rs.2.2)

/-- Whether a `CallResult` is a raised `MockException`. -/
def CallResult.isMockError : CallResult → Bool
  | CallResult.mockError _ => true
  | _ => false

/-- Internal helper for the rendering proof: each element prefixed by a
comma separator. -/
def tailJoin : List String → String
  | [] => ""
  | x :: xs => ", " ++ x ++ tailJoin xs

/-
Concrete fixtures used by the witness and counterexample theorems.
-/

/-- A concrete mock function. -/
def fMock : MockFunction := ⟨0, "f"⟩

/-- A second concrete mock function (distinct identity). -/
def gMock : MockFunction := ⟨1, "g"⟩

/-- The empty wildcard store: every `AnyValue` cell starts at `None`. -/
def store0 : AnyStore := fun _ => Value.none

/-- Expectation with a wildcard at position 0 and a concrete value at
position 1 (used to exhibit capture on a failed match). -/
def exWild : ExpectedCall := { fcn := fMock, args := [Value.any 0, Value.int 1], kwargs := [] }

/-- Expectation with a keyword wildcard at key `a` and a concrete keyword
value at key `b`. -/
def exKwWild : ExpectedCall :=
  { fcn := fMock, args := [], kwargs := [("a", Value.any 1), ("b", Value.int 1)] }

/-- Expectation of `f(1)`. -/
def exOne : ExpectedCall := { fcn := fMock, args := [Value.int 1], kwargs := [] }

/-- Expectation of `f(1, wildcard)`: concrete value first, then a wildcard
(cell 2). -/
def exPosWild : ExpectedCall :=
  { fcn := fMock, args := [Value.int 1, Value.any 2], kwargs := [] }

/-- A concrete scripted scenario: `f(1)` returns `2`, then `f(2, a = 3)`
returns `4`, then `f()` raises `'boom'`. -/
def specsDemo : List CallSpec :=
  [ { args := [Value.int 1], kwargs := [], retVal := Value.int 2 },
    { args := [Value.int 2], kwargs := [("a", Value.int 3)], retVal := Value.int 4 },
    { args := [], kwargs := [], excVal := Value.str "boom" } ]

/-
Helper lemmas about the matching functions.
-/

theorem argMismatch_snd (s : AnyStore) (e a : Value) :
    (argMismatch s e a).2 = argBadB e a := by
  cases e <;> rfl

theorem argMismatch_fst_ne (s : AnyStore) (e a : Value) (i : Nat)
    (h : e ≠ Value.any i) : (argMismatch s e a).1 i = s i := by
  cases e with
  | any j =>
      have hij : i ≠ j := fun hij => h (by rw [hij])
      simp [argMismatch, storeSet, hij]
  | none => rfl
  | int n => rfl
  | str t => rfl

theorem argMismatch_fst_any (s : AnyStore) (a : Value) (i : Nat) :
    (argMismatch s (Value.any i) a).1 i = a := by
  simp [argMismatch, storeSet]

theorem argBadB_self (v : Value) : argBadB v v = false := by
  cases v <;> simp [argBadB]

theorem matchArgs_snd (es : List Value) : ∀ (as_ : List Value) (s : AnyStore) (m : Bool),
    (matchArgs s m es as_).2 = (m || anyArgsBad es as_) := by
  induction es with
  | nil => intro as_ s m; simp [matchArgs, anyArgsBad]
  | cons e es ih =>
    intro as_ s m
    cases as_ with
    | nil => simp [matchArgs, anyArgsBad]
    | cons a as_ =>
      simp [matchArgs, anyArgsBad, ih, argMismatch_snd, Bool.or_assoc]

theorem matchKwargs_snd (l : List (String × Value)) :
    ∀ (ekw : List (String × Value)) (s : AnyStore) (m : Bool),
    (matchKwargs ekw s m l).2 = (m || l.any (kwBadB ekw)) := by
  induction l with
  | nil => intro ekw s m; simp [matchKwargs]
  | cons kv rest ih =>
    intro ekw s m
    obtain ⟨k, v⟩ := kv
    simp [matchKwargs, ih, kwBadB, argMismatch_snd, Bool.or_assoc]

theorem anyArgsBad_self (l : List Value) : anyArgsBad l l = false := by
  induction l with
  | nil => rfl
  | cons v l ih => simp [anyArgsBad, argBadB_self, ih]

theorem matchArgs_fst_not_mem (es : List Value) :
    ∀ (as_ : List Value) (s : AnyStore) (m : Bool) (i : Nat),
    Value.any i ∉ es → (matchArgs s m es as_).1 i = s i := by
  induction es with
  | nil => intro as_ s m i _; simp [matchArgs]
  | cons e es ih =>
    intro as_ s m i h
    cases as_ with
    | nil => simp [matchArgs]
    | cons a as_ =>
      have he : e ≠ Value.any i := fun heq => h (heq ▸ List.mem_cons_self e es)
      have hes : Value.any i ∉ es := fun hm => h (List.mem_cons_of_mem e hm)
      simp only [matchArgs]
      rw [ih as_ _ _ i hes, argMismatch_fst_ne _ _ _ _ he]

theorem matchKwargs_fst_not_mem (l : List (String × Value)) :
    ∀ (ekw : List (String × Value)) (s : AnyStore) (m : Bool) (i : Nat),
    (∀ p ∈ l, (lookupVal ekw p.1).getD Value.none ≠ Value.any i) →
    (matchKwargs ekw s m l).1 i = s i := by
  induction l with
  | nil => intro ekw s m i _; simp [matchKwargs]
  | cons kv rest ih =>
    intro ekw s m i h
    obtain ⟨k, v⟩ := kv
    have hk := h (k, v) (List.mem_cons_self _ _)
    have hrest : ∀ p ∈ rest, (lookupVal ekw p.1).getD Value.none ≠ Value.any i :=
      fun p hp => h p (List.mem_cons_of_mem _ hp)
    simp only [matchKwargs]
    rw [ih ekw _ _ i hrest, argMismatch_fst_ne _ _ _ _ hk]

theorem matchArgs_append (l₁ : List Value) :
    ∀ (m₁ l₂ m₂ : List Value) (s : AnyStore) (b : Bool),
    l₁.length = m₁.length →
    matchArgs s b (l₁ ++ l₂) (m₁ ++ m₂) =
      matchArgs (matchArgs s b l₁ m₁).1 (matchArgs s b l₁ m₁).2 l₂ m₂ := by
  induction l₁ with
  | nil =>
    intro m₁ l₂ m₂ s b h
    cases m₁ with
    | nil => simp [matchArgs]
    | cons a as_ => simp at h
  | cons e es ih =>
    intro m₁ l₂ m₂ s b h
    cases m₁ with
    | nil => simp at h
    | cons a as_ =>
      simp only [List.cons_append, matchArgs]
      exact ih as_ l₂ m₂ _ _ (by simpa using h)

theorem anyArgsBad_append (l₁ : List Value) :
    ∀ (m₁ l₂ m₂ : List Value), l₁.length = m₁.length →
    anyArgsBad (l₁ ++ l₂) (m₁ ++ m₂) = (anyArgsBad l₁ m₁ || anyArgsBad l₂ m₂) := by
  induction l₁ with
  | nil =>
    intro m₁ l₂ m₂ h
    cases m₁ with
    | nil => simp [anyArgsBad]
    | cons a as_ => simp at h
  | cons e es ih =>
    intro m₁ l₂ m₂ h
    cases m₁ with
    | nil => simp at h
    | cons a as_ =>
      have h' : es.length = as_.length := by simpa using h
      simp [anyArgsBad, ih as_ l₂ m₂ h', Bool.or_assoc]

theorem matchKwargs_append (l₁ : List (String × Value)) :
    ∀ (l₂ : List (String × Value)) (ekw : List (String × Value)) (s : AnyStore) (m : Bool),
    matchKwargs ekw s m (l₁ ++ l₂) =
      matchKwargs ekw (matchKwargs ekw s m l₁).1 (matchKwargs ekw s m l₁).2 l₂ := by
  induction l₁ with
  | nil => intro l₂ ekw s m; simp [matchKwargs]
  | cons kv rest ih =>
    intro l₂ ekw s m
    obtain ⟨k, v⟩ := kv
    simp only [List.cons_append, matchKwargs]
    exact ih l₂ ekw _ _

theorem matchArgs_capture (pre : List Value) :
    ∀ (apre post apost : List Value) (s : AnyStore) (m : Bool) (i : Nat) (x : Value),
    pre.length = apre.length → Value.any i ∉ post →
    (matchArgs s m (pre ++ Value.any i :: post) (apre ++ x :: apost)).1 i = x := by
  induction pre with
  | nil =>
    intro apre post apost s m i x h hnm
    cases apre with
    | nil =>
      simp only [List.nil_append, matchArgs]
      rw [matchArgs_fst_not_mem post apost _ _ i hnm, argMismatch_fst_any]
    | cons a as_ => simp at h
  | cons e es ih =>
    intro apre post apost s m i x h hnm
    cases apre with
    | nil => simp at h
    | cons a as_ =>
      simp only [List.cons_append, matchArgs]
      exact ih as_ post apost _ _ i x (by simpa using h) hnm

theorem matchKwargs_capture (kpre : List (String × Value)) :
    ∀ (ekw kpost : List (String × Value)) (k : String) (x : Value)
      (s : AnyStore) (m : Bool) (i : Nat),
    lookupVal ekw k = Option.some (Value.any i) →
    (∀ p ∈ kpost, (lookupVal ekw p.1).getD Value.none ≠ Value.any i) →
    (matchKwargs ekw s m (kpre ++ (k, x) :: kpost)).1 i = x := by
  induction kpre with
  | nil =>
    intro ekw kpost k x s m i hk hpost
    simp only [List.nil_append, matchKwargs, hk]
    rw [matchKwargs_fst_not_mem kpost ekw _ _ i hpost]
    simp [argMismatch_fst_any]
  | cons kv rest ih =>
    intro ekw kpost k x s m i hk hpost
    obtain ⟨k', v'⟩ := kv
    simp only [List.cons_append, matchKwargs]
    exact ih ekw kpost k x _ _ i hk hpost

theorem lookupVal_nodup (kw : List (String × Value)) :
    (kw.map Prod.fst).Nodup →
    ∀ (k : String) (v : Value), (k, v) ∈ kw → lookupVal kw k = Option.some v := by
  induction kw with
  | nil => intro _ k v h; cases h
  | cons p rest ih =>
    obtain ⟨k', v'⟩ := p
    intro hnd k v h
    rw [List.map_cons, List.nodup_cons] at hnd
    rcases List.mem_cons.mp h with heq | hm
    · cases heq
      simp [lookupVal]
    · have hne : k' ≠ k := by
        intro hkk
        apply hnd.1
        rw [hkk]
        exact List.mem_map.mpr ⟨(k, v), hm, rfl⟩
      simp [lookupVal, hne, ih hnd.2 k v hm]

theorem keySetEq_self (ks : List String) : keySetEq ks ks = true := by
  simp [keySetEq, List.all_eq_true]

theorem kwBadB_self (kw : List (String × Value)) (hnd : (kw.map Prod.fst).Nodup) :
    kw.any (kwBadB kw) = false := by
  rw [List.any_eq_false]
  intro p hp
  obtain ⟨k, v⟩ := p
  rw [kwBadB]
  simp only [lookupVal_nodup kw hnd k v hp, Option.getD_some]
  simp [argBadB_self]

theorem posFlag_eq (c : ExpectedCall) (args : List Value) (s : AnyStore) :
    (if c.args.length ≠ args.length then (s, true)
      else matchArgs s false c.args args).2 = posMismatchB c args := by
  by_cases h : c.args.length = args.length
  · simp [h, posMismatchB, matchArgs_snd]
  · simp [h, posMismatchB]

theorem kwFlag_eq (c : ExpectedCall) (kwargs : List (String × Value)) (s : AnyStore) :
    (if ¬ keySetEq (c.kwargs.map Prod.fst) (kwargs.map Prod.fst) then (s, true)
      else matchKwargs c.kwargs s false kwargs).2 = kwMismatchB c kwargs := by
  by_cases h : keySetEq (c.kwargs.map Prod.fst) (kwargs.map Prod.fst) = true
  · simp [h, kwMismatchB, matchKwargs_snd]
  · have h' : keySetEq (c.kwargs.map Prod.fst) (kwargs.map Prod.fst) = false :=
      Bool.not_eq_true _ ▸ h
    simp [h', kwMismatchB]

theorem call_nil_eq (comp : List ExpectedCall) (s : AnyStore) (f : MockFunction)
    (args : List Value) (kwargs : List (String × Value)) :
    call ⟨[], comp⟩ s f args kwargs =
      (⟨[], []⟩, s, CallResult.mockError (reportText ⟨[], comp⟩ "Unexpected call"
        (Option.some { fcn := f, args := args, kwargs := kwargs }))) := rfl

theorem call_wrong_eq (c : ExpectedCall) (rest comp : List ExpectedCall) (s : AnyStore)
    (f : MockFunction) (args : List Value) (kwargs : List (String × Value))
    (h : c.fcn.id ≠ f.id) :
    call ⟨c :: rest, comp⟩ s f args kwargs =
      (⟨[], []⟩, s, CallResult.mockError (reportText ⟨c :: rest, comp⟩ "Wrong call"
        (Option.some { fcn := f, args := args, kwargs := kwargs }))) := by
  simp [call, makeException, h]

theorem call_argmm_parts (c : ExpectedCall) (rest comp : List ExpectedCall) (s : AnyStore)
    (f : MockFunction) (args : List Value) (kwargs : List (String × Value))
    (hf : c.fcn.id = f.id) (hp : posMismatchB c args = true) :
    (call ⟨c :: rest, comp⟩ s f args kwargs).1 = (⟨[], []⟩ : CallContext) ∧
    (call ⟨c :: rest, comp⟩ s f args kwargs).2.2 =
      CallResult.mockError (reportText ⟨c :: rest, comp⟩ "Argument mismatch"
        (Option.some { fcn := f, args := args, kwargs := kwargs })) := by
  by_cases hlen : c.args.length = args.length
  · have hm : anyArgsBad c.args args = true := by
      rw [posMismatchB, hlen] at hp
      simpa using hp
    have h2 : (matchArgs s false c.args args).2 = true := by
      rw [matchArgs_snd]
      simp [hm]
    simp [call, makeException, hf, hlen, h2]
  · simp [call, makeException, hf, hlen]

theorem call_kwmm_parts (c : ExpectedCall) (rest comp : List ExpectedCall) (s : AnyStore)
    (f : MockFunction) (args : List Value) (kwargs : List (String × Value))
    (hf : c.fcn.id = f.id) (hp : posMismatchB c args = false)
    (hk : kwMismatchB c kwargs = true) :
    (call ⟨c :: rest, comp⟩ s f args kwargs).1 = (⟨[], []⟩ : CallContext) ∧
    (call ⟨c :: rest, comp⟩ s f args kwargs).2.2 =
      CallResult.mockError (reportText ⟨c :: rest, comp⟩ "Keyword argument mismatch"
        (Option.some { fcn := f, args := args, kwargs := kwargs })) := by
  rw [posMismatchB] at hp
  simp only [Bool.or_eq_false_iff, decide_eq_false_iff_not, ne_eq, not_not] at hp
  obtain ⟨hlen, hargs⟩ := hp
  have h2 : (matchArgs s false c.args args).2 = false := by
    rw [matchArgs_snd]
    simp [hargs]
  by_cases hks : keySetEq (c.kwargs.map Prod.fst) (kwargs.map Prod.fst) = true
  · have hkw : kwargs.any (kwBadB c.kwargs) = true := by
      rw [kwMismatchB, hks] at hk
      simpa using hk
    have h3 : (matchKwargs c.kwargs (matchArgs s false c.args args).1 false kwargs).2 = true := by
      rw [matchKwargs_snd]
      simp [hkw]
    simp [call, makeException, hf, hlen, h2, hks, h3]
  · have hks' : keySetEq (c.kwargs.map Prod.fst) (kwargs.map Prod.fst) = false :=
      Bool.not_eq_true _ ▸ hks
    simp [call, makeException, hf, hlen, h2, hks']

theorem call_success_parts (c : ExpectedCall) (rest comp : List ExpectedCall) (s : AnyStore)
    (f : MockFunction) (args : List Value) (kwargs : List (String × Value))
    (hf : c.fcn.id = f.id) (hp : posMismatchB c args = false)
    (hk : kwMismatchB c kwargs = false) :
    (call ⟨c :: rest, comp⟩ s f args kwargs).1 = (⟨rest, comp ++ [c]⟩ : CallContext) ∧
    (call ⟨c :: rest, comp⟩ s f args kwargs).2.2 =
      (if c.exception ≠ Value.none then CallResult.raised c.exception
        else CallResult.ret c.return_value) ∧
    (call ⟨c :: rest, comp⟩ s f args kwargs).2.1 =
      (matchKwargs c.kwargs (matchArgs s false c.args args).1 false kwargs).1 := by
  rw [posMismatchB] at hp
  simp only [Bool.or_eq_false_iff, decide_eq_false_iff_not, ne_eq, not_not] at hp
  obtain ⟨hlen, hargs⟩ := hp
  have h2 : (matchArgs s false c.args args).2 = false := by
    rw [matchArgs_snd]
    simp [hargs]
  rw [kwMismatchB] at hk
  simp only [Bool.or_eq_false_iff, Bool.not_eq_false'] at hk
  obtain ⟨hks, hkw⟩ := hk
  have h3 : (matchKwargs c.kwargs (matchArgs s false c.args args).1 false kwargs).2 = false := by
    rw [matchKwargs_snd]
    simp [hkw]
  by_cases he : c.exception = Value.none <;>
    simp [call, hf, hlen, h2, hks, h3, he]

theorem call_isMockError_cons (c : ExpectedCall) (rest comp : List ExpectedCall)
    (s : AnyStore) (f : MockFunction) (args : List Value)
    (kwargs : List (String × Value)) :
    ((call ⟨c :: rest, comp⟩ s f args kwargs).2.2).isMockError
      = (decide (c.fcn.id ≠ f.id) || (posMismatchB c args || kwMismatchB c kwargs)) := by
  by_cases hf : c.fcn.id = f.id
  · rcases hp : posMismatchB c args with _ | _
    · rcases hk : kwMismatchB c kwargs with _ | _
      · obtain ⟨-, h2, -⟩ := call_success_parts c rest comp s f args kwargs hf hp hk
        rw [h2]
        by_cases he : c.exception = Value.none <;> simp [he, CallResult.isMockError, hf, hp, hk]
      · obtain ⟨-, h2⟩ := call_kwmm_parts c rest comp s f args kwargs hf hp hk
        rw [h2]
        simp [CallResult.isMockError, hf, hp, hk]
    · obtain ⟨-, h2⟩ := call_argmm_parts c rest comp s f args kwargs hf hp
      rw [h2]
      simp [CallResult.isMockError, hf, hp]
  · rw [call_wrong_eq c rest comp s f args kwargs hf]
    simp [CallResult.isMockError, hf]

theorem set_last_return_concat (l : List ExpectedCall) (comp : List ExpectedCall)
    (x : ExpectedCall) (f : MockFunction) (v : Value) (h : x.fcn.id = f.id) :
    set_last_return ⟨l ++ [x], comp⟩ f v
      = SetResult.ok ⟨l ++ [{ x with return_value := v }], comp⟩ := by
  simp [set_last_return, checkLastCall, setLast, List.getLast?_concat,
    List.dropLast_concat, h]

theorem set_last_exception_concat (l : List ExpectedCall) (comp : List ExpectedCall)
    (x : ExpectedCall) (f : MockFunction) (v : Value) (h : x.fcn.id = f.id) :
    set_last_exception ⟨l ++ [x], comp⟩ f v
      = SetResult.ok ⟨l ++ [{ x with exception := v }], comp⟩ := by
  simp [set_last_exception, checkLastCall, setLast, List.getLast?_concat,
    List.dropLast_concat, h]

theorem declareOne_eq (ctx : CallContext) (f : MockFunction) (sp : CallSpec) :
    declareOne ctx f sp = ⟨ctx.calls ++ [toCall f sp], ctx.completed_calls⟩ := by
  rw [declareOne]
  have h1 : expect ctx f sp.args sp.kwargs
      = ⟨ctx.calls ++ [{ fcn := f, args := sp.args, kwargs := sp.kwargs }], ctx.completed_calls⟩ := rfl
  rw [h1, set_last_return_concat _ _ _ _ _ rfl]
  rw [set_last_exception_concat _ _ _ _ _ rfl]
  rfl

theorem declareAll_foldl (f : MockFunction) (specs : List CallSpec) :
    ∀ ctx : CallContext,
    specs.foldl (fun c sp => declareOne c f sp) ctx
      = ⟨ctx.calls ++ specs.map (toCall f), ctx.completed_calls⟩ := by
  induction specs with
  | nil => intro ctx; simp
  | cons sp rest ih =>
    intro ctx
    rw [List.foldl_cons, ih, declareOne_eq]
    simp

theorem declareAll_eq (f : MockFunction) (specs : List CallSpec) :
    declareAll f specs = ⟨specs.map (toCall f), []⟩ := by
  rw [declareAll, declareAll_foldl]
  rfl

theorem call_match_self (c : ExpectedCall) (rest comp : List ExpectedCall)
    (s : AnyStore) (f : MockFunction) (hf : c.fcn.id = f.id)
    (hkeys : (c.kwargs.map Prod.fst).Nodup) :
    (call ⟨c :: rest, comp⟩ s f c.args c.kwargs).1 = (⟨rest, comp ++ [c]⟩ : CallContext) ∧
    (call ⟨c :: rest, comp⟩ s f c.args c.kwargs).2.2 =
      (if c.exception ≠ Value.none then CallResult.raised c.exception
        else CallResult.ret c.return_value) := by
  have hp : posMismatchB c c.args = false := by
    simp [posMismatchB, anyArgsBad_self]
  have hk : kwMismatchB c c.kwargs = false := by
    simp [kwMismatchB, keySetEq_self, kwBadB_self c.kwargs hkeys]
  obtain ⟨h1, h2, -⟩ := call_success_parts c rest comp s f c.args c.kwargs hf hp hk
  exact ⟨h1, h2⟩

theorem runCalls_script (f : MockFunction) (specs : List CallSpec)
    (hkeys : ∀ sp ∈ specs, (sp.kwargs.map Prod.fst).Nodup) :
    ∀ (comp : List ExpectedCall) (s : AnyStore),
    (runCalls ⟨specs.map (toCall f), comp⟩ s
        (specs.map (fun sp => (f, sp.args, sp.kwargs)))).1
      = ⟨[], comp ++ specs.map (toCall f)⟩ ∧
    (runCalls ⟨specs.map (toCall f), comp⟩ s
        (specs.map (fun sp => (f, sp.args, sp.kwargs)))).2.2
      = specs.map specOutcome := by
  induction specs with
  | nil => intro comp s; simp [runCalls]
  | cons sp rest ih =>
    intro comp s
    have hnd : (sp.kwargs.map Prod.fst).Nodup := hkeys sp (List.mem_cons_self _ _)
    have hrest : ∀ q ∈ rest, (q.kwargs.map Prod.fst).Nodup :=
      fun q hq => hkeys q (List.mem_cons_of_mem _ hq)
    obtain ⟨h1, h2⟩ := call_match_self (toCall f sp) (rest.map (toCall f)) comp s f rfl hnd
    have h1' : (call ⟨toCall f sp :: rest.map (toCall f), comp⟩ s f sp.args sp.kwargs).1
        = (⟨rest.map (toCall f), comp ++ [toCall f sp]⟩ : CallContext) := h1
    have h2' : (call ⟨toCall f sp :: rest.map (toCall f), comp⟩ s f sp.args sp.kwargs).2.2
        = specOutcome sp := h2.trans rfl
    have ihx := ih hrest (comp ++ [toCall f sp])
      ((call ⟨toCall f sp :: rest.map (toCall f), comp⟩ s f sp.args sp.kwargs).2.1)
    simp only [List.map_cons, runCalls]
    rw [h1']
    constructor
    · rw [ihx.1]
      simp
    · rw [h2', ihx.2]

theorem foldl_comma_true {α : Type} (g : α → String) (xs : List α) :
    ∀ acc : String,
    xs.foldl (fun (acc' : String × Bool) x =>
        ((if acc'.2 then acc'.1 ++ ", " else acc'.1) ++ g x, true)) (acc, true)
      = (acc ++ tailJoin (xs.map g), true) := by
  induction xs with
  | nil => intro acc; simp [tailJoin, String.append_empty]
  | cons x xs ih =>
    intro acc
    simp only [List.foldl_cons, List.map_cons, tailJoin, if_pos]
    rw [ih]
    simp [String.append_assoc]

theorem foldl_comma_start_cons {α : Type} (g : α → String) (x : α) (xs : List α)
    (acc : String) :
    (x :: xs).foldl (fun (acc' : String × Bool) y =>
        ((if acc'.2 then acc'.1 ++ ", " else acc'.1) ++ g y, true)) (acc, false)
      = (acc ++ g x ++ tailJoin (xs.map g), true) := by
  simp only [List.foldl_cons, Bool.false_eq_true, if_false]
  rw [foldl_comma_true]

theorem specJoin_cons (x : String) (xs : List String) :
    specJoin (x :: xs) = x ++ tailJoin xs := by
  induction xs generalizing x with
  | nil => simp [specJoin, tailJoin, String.append_empty]
  | cons y ys ih => simp [specJoin, tailJoin, ih, String.append_assoc]

theorem tailJoin_append (l₁ l₂ : List String) :
    tailJoin (l₁ ++ l₂) = tailJoin l₁ ++ tailJoin l₂ := by
  induction l₁ with
  | nil => simp [tailJoin, String.empty_append]
  | cons x xs ih => simp [tailJoin, ih, String.append_assoc]

theorem two_fold_join {α β : Type} (g1 : α → String) (g2 : β → String)
    (xs : List α) (ys : List β) (r : String) :
    ((ys.foldl (fun (acc : String × Bool) y =>
        ((if acc.2 then acc.1 ++ ", " else acc.1) ++ g2 y, true))
      (xs.foldl (fun (acc : String × Bool) x =>
        ((if acc.2 then acc.1 ++ ", " else acc.1) ++ g1 x, true)) (r, false))).1)
      = r ++ specJoin (xs.map g1 ++ ys.map g2) := by
  cases xs with
  | nil =>
    cases ys with
    | nil => simp [specJoin, String.append_empty]
    | cons y ys =>
      rw [List.foldl_nil, foldl_comma_start_cons g2 y ys r]
      simp [specJoin_cons, String.append_assoc]
  | cons x xs =>
    rw [foldl_comma_start_cons g1 x xs r, foldl_comma_true g2 ys _]
    simp [specJoin_cons, tailJoin_append, String.append_assoc]

theorem str_core (c : ExpectedCall) :
    ((sortKeys (c.kwargs.map Prod.fst)).foldl
      (fun (acc : String × Bool) k =>
        ((if acc.2 then acc.1 ++ ", " else acc.1) ++
          (k ++ " = " ++ pyRepr ((lookupVal c.kwargs k).getD Value.none)), true))
      (c.args.foldl
        (fun (acc : String × Bool) arg =>
          ((if acc.2 then acc.1 ++ ", " else acc.1) ++ pyRepr arg, true))
        (c.fcn.name ++ "(", false))).1
    = (c.fcn.name ++ "(") ++ specJoin (c.args.map pyRepr
        ++ (sortKeys (c.kwargs.map Prod.fst)).map
            (fun k => k ++ " = " ++ pyRepr ((lookupVal c.kwargs k).getD Value.none))) :=
  two_fold_join pyRepr
    (fun k => k ++ " = " ++ pyRepr ((lookupVal c.kwargs k).getD Value.none))
    c.args (sortKeys (c.kwargs.map Prod.fst)) (c.fcn.name ++ "(")

/-
Claim theorems.
-/

/-- C1: for every sequence of expectations declared on one mock function
(each with an optionally declared return value or exception) and the same
calls made in FIFO order with arguments equal to those expected, the k-th
call produces exactly the k-th declared outcome (raises the declared
exception when one is set, otherwise returns the declared return value,
which defaults to no value), and `check_done()` afterwards succeeds.  The
unique-keys hypothesis reflects that Python keyword-argument dicts cannot
repeat a key. -/
theorem c1_fifo_script_declared_outcomes (f : MockFunction) (specs : List CallSpec)
    (hkeys : ∀ sp ∈ specs, (sp.kwargs.map Prod.fst).Nodup) (store : AnyStore) :
    (runCalls (declareAll f specs) store
        (specs.map (fun sp => (f, sp.args, sp.kwargs)))).2.2
      = specs.map specOutcome ∧
    (check_done (runCalls (declareAll f specs) store
        (specs.map (fun sp => (f, sp.args, sp.kwargs)))).1).2 = Option.none := by
  rw [declareAll_eq]
  obtain ⟨h1, h2⟩ := runCalls_script f specs hkeys [] store
  refine ⟨h2, ?_⟩
  rw [h1]
  simp [check_done]

/-- Witness for C1: the concrete scenario `specsDemo` (two returning calls
and one raising call) runs to its declared outcomes and passes
`check_done`. -/
theorem c1_witness :
    (runCalls (declareAll fMock specsDemo) store0
        (specsDemo.map (fun sp => (fMock, sp.args, sp.kwargs)))).2.2
      = specsDemo.map specOutcome ∧
    (check_done (runCalls (declareAll fMock specsDemo) store0
        (specsDemo.map (fun sp => (fMock, sp.args, sp.kwargs)))).1).2 = Option.none :=
  c1_fifo_script_declared_outcomes fMock specsDemo (by decide) store0

/-- C2: `call` matches only against the head of the queue and checks in the
source's fixed order: empty queue gives "Unexpected call"; a head owned by a
different mock gives "Wrong call"; a positional-count or non-wildcard
positional inequality gives "Argument mismatch"; a keyword key-set or
non-wildcard keyword inequality gives "Keyword argument mismatch"; otherwise
the head is consumed.  The last conjunct states that the match verdict is
independent of everything behind the head of the queue. -/
theorem c2_head_only_fixed_order (s : AnyStore) (f : MockFunction)
    (args : List Value) (kwargs : List (String × Value))
    (comp : List ExpectedCall) (c : ExpectedCall) (rest : List ExpectedCall) :
    (call ⟨[], comp⟩ s f args kwargs =
      (⟨[], []⟩, s, CallResult.mockError (reportText ⟨[], comp⟩ "Unexpected call"
        (Option.some { fcn := f, args := args, kwargs := kwargs })))) ∧
    (c.fcn.id ≠ f.id →
      call ⟨c :: rest, comp⟩ s f args kwargs =
        (⟨[], []⟩, s, CallResult.mockError (reportText ⟨c :: rest, comp⟩ "Wrong call"
          (Option.some { fcn := f, args := args, kwargs := kwargs })))) ∧
    (c.fcn.id = f.id → posMismatchB c args = true →
      (call ⟨c :: rest, comp⟩ s f args kwargs).2.2 =
        CallResult.mockError (reportText ⟨c :: rest, comp⟩ "Argument mismatch"
          (Option.some { fcn := f, args := args, kwargs := kwargs }))) ∧
    (c.fcn.id = f.id → posMismatchB c args = false → kwMismatchB c kwargs = true →
      (call ⟨c :: rest, comp⟩ s f args kwargs).2.2 =
        CallResult.mockError (reportText ⟨c :: rest, comp⟩ "Keyword argument mismatch"
          (Option.some { fcn := f, args := args, kwargs := kwargs }))) ∧
    (c.fcn.id = f.id → posMismatchB c args = false → kwMismatchB c kwargs = false →
      (call ⟨c :: rest, comp⟩ s f args kwargs).1 = (⟨rest, comp ++ [c]⟩ : CallContext) ∧
      (call ⟨c :: rest, comp⟩ s f args kwargs).2.2 =
        (if c.exception ≠ Value.none then CallResult.raised c.exception
          else CallResult.ret c.return_value)) ∧
    (∀ (rest' comp' : List ExpectedCall) (s' : AnyStore),
      ((call ⟨c :: rest', comp'⟩ s' f args kwargs).2.2).isMockError
        = ((call ⟨c :: rest, comp⟩ s f args kwargs).2.2).isMockError) := by
  refine ⟨call_nil_eq comp s f args kwargs, ?_, ?_, ?_, ?_, ?_⟩
  · intro h
    exact call_wrong_eq c rest comp s f args kwargs h
  · intro hf hp
    exact (call_argmm_parts c rest comp s f args kwargs hf hp).2
  · intro hf hp hk
    exact (call_kwmm_parts c rest comp s f args kwargs hf hp hk).2
  · intro hf hp hk
    obtain ⟨h1, h2, -⟩ := call_success_parts c rest comp s f args kwargs hf hp hk
    exact ⟨h1, h2⟩
  · intro rest' comp' s'
    rw [call_isMockError_cons, call_isMockError_cons]

/-- Witness for C2: calling mock `g` when the head expectation belongs to
mock `f` produces the "Wrong call" report and resets the context. -/
theorem c2_witness :
    call ⟨[exOne], []⟩ store0 gMock [Value.int 1] [] =
      (⟨[], []⟩, store0, CallResult.mockError (reportText ⟨[exOne], []⟩ "Wrong call"
        (Option.some { fcn := gMock, args := [Value.int 1], kwargs := [] }))) :=
  (c2_head_only_fixed_order store0 gMock [Value.int 1] [] [] exOne []).2.1 (by decide)

/-- C3: an expected argument position (positional or keyword) holding an
`AnyValue` wildcard never causes a mismatch — for every actual value supplied
there, a call whose other arguments match succeeds — and after the successful
call the wildcard's `value` cell equals the actual argument received at that
position.  The non-recapture hypotheses say the same wildcard cell is not
also used at a later-processed position (a Python `AnyValue` object used
twice would keep only the last capture). -/
theorem c3_wildcard_matches_and_captures :
    (∀ (f : MockFunction) (c : ExpectedCall) (rest comp : List ExpectedCall)
      (s : AnyStore) (pre post apre apost : List Value) (i : Nat) (x : Value)
      (akw : List (String × Value)),
      c.fcn.id = f.id →
      c.args = pre ++ Value.any i :: post →
      pre.length = apre.length → post.length = apost.length →
      anyArgsBad pre apre = false → anyArgsBad post apost = false →
      Value.any i ∉ post →
      keySetEq (c.kwargs.map Prod.fst) (akw.map Prod.fst) = true →
      akw.any (kwBadB c.kwargs) = false →
      (∀ p ∈ akw, (lookupVal c.kwargs p.1).getD Value.none ≠ Value.any i) →
      (call ⟨c :: rest, comp⟩ s f (apre ++ x :: apost) akw).1
          = (⟨rest, comp ++ [c]⟩ : CallContext) ∧
      (call ⟨c :: rest, comp⟩ s f (apre ++ x :: apost) akw).2.2 =
        (if c.exception ≠ Value.none then CallResult.raised c.exception
          else CallResult.ret c.return_value) ∧
      (call ⟨c :: rest, comp⟩ s f (apre ++ x :: apost) akw).2.1 i = x) ∧
    (∀ (f : MockFunction) (c : ExpectedCall) (rest comp : List ExpectedCall)
      (s : AnyStore) (aargs : List Value) (kpre kpost : List (String × Value))
      (k : String) (i : Nat) (x : Value),
      c.fcn.id = f.id →
      c.args.length = aargs.length →
      anyArgsBad c.args aargs = false →
      keySetEq (c.kwargs.map Prod.fst) ((kpre ++ (k, x) :: kpost).map Prod.fst) = true →
      lookupVal c.kwargs k = Option.some (Value.any i) →
      kpre.any (kwBadB c.kwargs) = false →
      kpost.any (kwBadB c.kwargs) = false →
      (∀ p ∈ kpost, (lookupVal c.kwargs p.1).getD Value.none ≠ Value.any i) →
      (call ⟨c :: rest, comp⟩ s f aargs (kpre ++ (k, x) :: kpost)).1
          = (⟨rest, comp ++ [c]⟩ : CallContext) ∧
      (call ⟨c :: rest, comp⟩ s f aargs (kpre ++ (k, x) :: kpost)).2.2 =
        (if c.exception ≠ Value.none then CallResult.raised c.exception
          else CallResult.ret c.return_value) ∧
      (call ⟨c :: rest, comp⟩ s f aargs (kpre ++ (k, x) :: kpost)).2.1 i = x) := by
  constructor
  · intro f c rest comp s pre post apre apost i x akw hf hargs hl1 hl2 hb1 hb2 hnm hks hkw hnc
    have hlen : c.args.length = (apre ++ x :: apost).length := by
      rw [hargs]
      simp [hl1, hl2]
    have hbad : anyArgsBad c.args (apre ++ x :: apost) = false := by
      rw [hargs, anyArgsBad_append pre apre (Value.any i :: post) (x :: apost) hl1]
      simp [anyArgsBad, argBadB, hb1, hb2]
    have hp : posMismatchB c (apre ++ x :: apost) = false := by
      simp [posMismatchB, hlen, hbad]
    have hk : kwMismatchB c akw = false := by
      simp [kwMismatchB, hks, hkw]
    obtain ⟨h1, h2, h3⟩ := call_success_parts c rest comp s f (apre ++ x :: apost) akw hf hp hk
    refine ⟨h1, h2, ?_⟩
    rw [h3, matchKwargs_fst_not_mem akw c.kwargs _ _ i hnc, hargs]
    exact matchArgs_capture pre apre post apost s false i x hl1 hnm
  · intro f c rest comp s aargs kpre kpost k i x hf hlen hbad hks hlook hkw1 hkw2 hnc
    have hp : posMismatchB c aargs = false := by
      simp [posMismatchB, hlen, hbad]
    have hmid : kwBadB c.kwargs (k, x) = false := by
      simp [kwBadB, hlook, argBadB]
    have hkany : (kpre ++ (k, x) :: kpost).any (kwBadB c.kwargs) = false := by
      simp only [List.any_append, List.any_cons, hkw1, hkw2, hmid]
      simp
    have hk : kwMismatchB c (kpre ++ (k, x) :: kpost) = false := by
      rw [kwMismatchB, hks, hkany]
      rfl
    obtain ⟨h1, h2, h3⟩ :=
      call_success_parts c rest comp s f aargs (kpre ++ (k, x) :: kpost) hf hp hk
    refine ⟨h1, h2, ?_⟩
    rw [h3]
    exact matchKwargs_capture kpre c.kwargs kpost k x _ false i hlook hnc

/-- Witness for C3: `f.expect(1, wildcard)` matched by `f(1, 7)` succeeds and
the wildcard cell 2 afterwards holds `7`. -/
theorem c3_witness :
    (call ⟨[exPosWild], []⟩ store0 fMock [Value.int 1, Value.int 7] []).1
        = (⟨[], [exPosWild]⟩ : CallContext) ∧
    (call ⟨[exPosWild], []⟩ store0 fMock [Value.int 1, Value.int 7] []).2.2 =
      (if exPosWild.exception ≠ Value.none then CallResult.raised exPosWild.exception
        else CallResult.ret exPosWild.return_value) ∧
    (call ⟨[exPosWild], []⟩ store0 fMock [Value.int 1, Value.int 7] []).2.1 2 = Value.int 7 :=
  c3_wildcard_matches_and_captures.1 fMock exPosWild [] [] store0
    [Value.int 1] [] [Value.int 1] [] 2 (Value.int 7) []
    (by decide) (by decide) (by decide) (by decide) (by decide) (by decide)
    (by decide) (by decide) (by decide) (by decide)

/-- C4: whenever `call` or `check_done` fails with a `MockException`, the
diagnostic text equals the report rendered from the pre-failure state (the
report is fully built first), and the returned context has both the
expectation queue and the completed-call log reset to empty. -/
theorem c4_report_built_then_state_reset (ctx : CallContext) (s : AnyStore)
    (f : MockFunction) (args : List Value) (kwargs : List (String × Value)) :
    (∀ msg, (call ctx s f args kwargs).2.2 = CallResult.mockError msg →
      (call ctx s f args kwargs).1 = (⟨[], []⟩ : CallContext) ∧
      (msg = reportText ctx "Unexpected call"
          (Option.some { fcn := f, args := args, kwargs := kwargs }) ∨
       msg = reportText ctx "Wrong call"
          (Option.some { fcn := f, args := args, kwargs := kwargs }) ∨
       msg = reportText ctx "Argument mismatch"
          (Option.some { fcn := f, args := args, kwargs := kwargs }) ∨
       msg = reportText ctx "Keyword argument mismatch"
          (Option.some { fcn := f, args := args, kwargs := kwargs }))) ∧
    (∀ msg, (check_done ctx).2 = Option.some msg →
      (check_done ctx).1 = (⟨[], []⟩ : CallContext) ∧
      msg = reportText ctx "Still expecting more function calls" Option.none) := by
  constructor
  · intro msg hmsg
    obtain ⟨cl, cc⟩ := ctx
    cases cl with
    | nil =>
      rw [call_nil_eq cc s f args kwargs] at hmsg ⊢
      simp only [CallResult.mockError.injEq] at hmsg
      exact ⟨rfl, Or.inl hmsg.symm⟩
    | cons c rest =>
      by_cases hf : c.fcn.id = f.id
      · rcases hpv : posMismatchB c args with _ | _
        · rcases hkv : kwMismatchB c kwargs with _ | _
          · obtain ⟨h1, h2, -⟩ := call_success_parts c rest cc s f args kwargs hf hpv hkv
            rw [h2] at hmsg
            by_cases he : c.exception = Value.none <;> simp [he] at hmsg
          · obtain ⟨h1, h2⟩ := call_kwmm_parts c rest cc s f args kwargs hf hpv hkv
            rw [h2] at hmsg
            simp only [CallResult.mockError.injEq] at hmsg
            exact ⟨h1, Or.inr (Or.inr (Or.inr hmsg.symm))⟩
        · obtain ⟨h1, h2⟩ := call_argmm_parts c rest cc s f args kwargs hf hpv
          rw [h2] at hmsg
          simp only [CallResult.mockError.injEq] at hmsg
          exact ⟨h1, Or.inr (Or.inr (Or.inl hmsg.symm))⟩
      · rw [call_wrong_eq c rest cc s f args kwargs hf] at hmsg ⊢
        simp only [CallResult.mockError.injEq] at hmsg
        exact ⟨rfl, Or.inr (Or.inl hmsg.symm)⟩
  · intro msg hmsg
    by_cases h : ctx.calls.length = 0
    · simp [check_done, h] at hmsg
    · simp only [check_done, h, if_true, ne_eq, not_false_eq_true, if_pos] at hmsg ⊢
      simp only [makeException, Option.some.injEq] at hmsg
      exact ⟨rfl, hmsg.symm⟩

/-- Witness for C4: at a non-empty queue, `check_done` fails; the message is
the report of the pre-reset state and the returned context is fully reset. -/
theorem c4_witness :
    (check_done (⟨[exOne], []⟩ : CallContext)).1 = (⟨[], []⟩ : CallContext) ∧
    reportText ⟨[exOne], []⟩ "Still expecting more function calls" Option.none
      = reportText ⟨[exOne], []⟩ "Still expecting more function calls" Option.none :=
  (c4_report_built_then_state_reset ⟨[exOne], []⟩ store0 fMock [] []).2
    (reportText ⟨[exOne], []⟩ "Still expecting more function calls" Option.none) rfl

/-- C5: a call whose owner matches the head but whose positional or keyword
arguments mismatch raises a `MockException` and performs no partial
consumption: the head expectation is not popped into the completed-call log
(which ends empty); instead the whole context is reset to the documented
empty state, which is a consistent state for any next call. -/
theorem c5_mismatch_no_partial_consumption (c : ExpectedCall)
    (rest comp : List ExpectedCall) (s : AnyStore) (f : MockFunction)
    (args : List Value) (kwargs : List (String × Value))
    (hf : c.fcn.id = f.id)
    (hmm : posMismatchB c args = true
      ∨ (posMismatchB c args = false ∧ kwMismatchB c kwargs = true)) :
    ((call ⟨c :: rest, comp⟩ s f args kwargs).2.2).isMockError = true ∧
    (call ⟨c :: rest, comp⟩ s f args kwargs).1.completed_calls = [] ∧
    (call ⟨c :: rest, comp⟩ s f args kwargs).1 = (⟨[], []⟩ : CallContext) := by
  rcases hmm with hp | ⟨hp, hk⟩
  · obtain ⟨h1, h2⟩ := call_argmm_parts c rest comp s f args kwargs hf hp
    refine ⟨?_, ?_, h1⟩
    · rw [h2]
      rfl
    · rw [h1]
  · obtain ⟨h1, h2⟩ := call_kwmm_parts c rest comp s f args kwargs hf hp hk
    refine ⟨?_, ?_, h1⟩
    · rw [h2]
      rfl
    · rw [h1]

/-- Witness for C5: `f.expect(1)` called as `f(2)` fails and leaves the empty
reset context with an empty completed-call log. -/
theorem c5_witness :
    ((call ⟨[exOne], []⟩ store0 fMock [Value.int 2] []).2.2).isMockError = true ∧
    (call ⟨[exOne], []⟩ store0 fMock [Value.int 2] []).1.completed_calls = [] ∧
    (call ⟨[exOne], []⟩ store0 fMock [Value.int 2] []).1 = (⟨[], []⟩ : CallContext) :=
  c5_mismatch_no_partial_consumption exOne [] [] store0 fMock [Value.int 2] []
    (by decide) (Or.inl (by decide))

/-- C6 (divergence exhibited at a concrete input): patching a field whose
original value is `None` gives the replacement during the scope, but on exit
the field is deleted instead of being restored to `None`, because
`Patch.__exit__` uses `None` as its "field was absent" sentinel
(`__dict__.get` returns `None` both for an absent field and for a present
field holding `None`). -/
theorem c6_patch_none_field_deleted :
    lookupVal [("x", Value.none)] "x" = Option.some Value.none ∧
    dictGet (patchEnter [("x", Value.none)] "x" (Value.int 1)).1 "x" = Value.int 1 ∧
    lookupVal (patchExit (patchEnter [("x", Value.none)] "x" (Value.int 1)).1 "x"
      (patchEnter [("x", Value.none)] "x" (Value.int 1)).2) "x" = Option.none := by
  decide

/-- C7: `set_last_return` / `set_last_exception` fail with a usage error
exactly when the tail expectation is not an immediately outstanding
expectation of the given mock: always when the queue is empty (in particular
whenever the last-added expectation has already been consumed, since
consumption is FIFO from the head), and always when the tail belongs to a
different mock; on failure the context is untouched (never a silent no-op),
and immediately after `expect` on the same mock they always succeed and
mutate exactly the tail expectation. -/
theorem c7_setter_usage_errors (ctx : CallContext) (f : MockFunction) (v : Value) :
    (ctx.calls = [] →
      set_last_return ctx f v
          = SetResult.usageError "no call for which to set return value" ∧
      set_last_exception ctx f v
          = SetResult.usageError "no call for which to set exception") ∧
    (∀ (pre : List ExpectedCall) (last : ExpectedCall), ctx.calls = pre ++ [last] →
      (last.fcn.id ≠ f.id →
        set_last_return ctx f v
            = SetResult.usageError "return value must be set immediately after expect" ∧
        set_last_exception ctx f v
            = SetResult.usageError "exception must be set immediately after expect") ∧
      (last.fcn.id = f.id →
        set_last_return ctx f v
            = SetResult.ok ⟨pre ++ [{ last with return_value := v }], ctx.completed_calls⟩ ∧
        set_last_exception ctx f v
            = SetResult.ok ⟨pre ++ [{ last with exception := v }], ctx.completed_calls⟩)) ∧
    (∀ (args : List Value) (kwargs : List (String × Value)),
      set_last_return (expect ctx f args kwargs) f v
        = SetResult.ok ⟨ctx.calls ++
            [{ fcn := f, args := args, kwargs := kwargs,
               return_value := v, exception := Value.none }], ctx.completed_calls⟩ ∧
      set_last_exception (expect ctx f args kwargs) f v
        = SetResult.ok ⟨ctx.calls ++
            [{ fcn := f, args := args, kwargs := kwargs,
               return_value := Value.none, exception := v }], ctx.completed_calls⟩) := by
  obtain ⟨cl, cc⟩ := ctx
  refine ⟨?_, ?_, ?_⟩
  · intro h
    have h' : cl = [] := h
    subst h'
    exact ⟨rfl, rfl⟩
  · intro pre last h
    have h' : cl = pre ++ [last] := h
    subst h'
    constructor
    · intro hne
      have hne' : f.id ≠ last.fcn.id := Ne.symm hne
      constructor <;>
        simp [set_last_return, set_last_exception, checkLastCall,
          List.getLast?_concat, hne']
    · intro heq
      exact ⟨set_last_return_concat pre cc last f v heq,
        set_last_exception_concat pre cc last f v heq⟩
  · intro args kwargs
    exact ⟨set_last_return_concat cl cc _ f v rfl,
      set_last_exception_concat cl cc _ f v rfl⟩

/-- Witness for C7: on an empty queue both setters fail with the
no-outstanding-call usage error. -/
theorem c7_witness :
    set_last_return (⟨[], []⟩ : CallContext) fMock (Value.int 1)
      = SetResult.usageError "no call for which to set return value" ∧
    set_last_exception (⟨[], []⟩ : CallContext) fMock (Value.int 1)
      = SetResult.usageError "no call for which to set exception" :=
  (c7_setter_usage_errors ⟨[], []⟩ fMock (Value.int 1)).1 rfl

/-- C8: the rendering of a call in a diagnostic report is the deterministic
string made of the owning mock's name, a parenthesized comma-separated list
of the positional values in declaration order followed by the keyword values
in sorted key order, then ` returns X` when a return value is set and
` raises X` when an exception is set. -/
theorem c8_deterministic_rendering (c : ExpectedCall) :
    ExpectedCall.str c = specRender c := by
  have hcore := str_core c
  simp only [ExpectedCall.str, specRender]
  by_cases he : c.exception = Value.none
  · have heN : ¬(c.exception ≠ Value.none) := fun h => h he
    by_cases hr : c.return_value = Value.none
    · have hrN : ¬(c.return_value ≠ Value.none) := fun h => h hr
      simp only [if_neg heN, if_neg hrN]
      rw [hcore]
      simp only [String.append_empty, String.append_assoc]
    · simp only [if_neg heN, if_pos hr]
      rw [hcore]
      simp only [String.append_empty, String.append_assoc]
  · by_cases hr : c.return_value = Value.none
    · have hrN : ¬(c.return_value ≠ Value.none) := fun h => h hr
      simp only [if_pos he, if_neg hrN]
      rw [hcore]
      simp only [String.append_empty, String.append_assoc]
    · simp only [if_pos he, if_pos hr]
      rw [hcore]
      simp only [String.append_empty, String.append_assoc]

/-- C9: `check_done()` succeeds, leaving the context untouched, exactly when
the expectation queue is empty; with one or more pending expectations it
fails with the unmet-expectations report and resets the context. -/
theorem c9_check_done_iff (ctx : CallContext) :
    (ctx.calls = [] → check_done ctx = (ctx, Option.none)) ∧
    (ctx.calls ≠ [] →
      (check_done ctx).1 = (⟨[], []⟩ : CallContext) ∧
      (check_done ctx).2
        = Option.some (reportText ctx "Still expecting more function calls" Option.none)) := by
  constructor
  · intro h
    simp [check_done, h]
  · intro h
    have hl : ctx.calls.length ≠ 0 := by
      simpa [List.length_eq_zero] using h
    simp [check_done, hl, makeException]

/-- Witness for C9: an empty queue passes `check_done` unchanged; a queue
holding one pending expectation fails with the report and resets. -/
theorem c9_witness :
    check_done (⟨[], [exOne]⟩ : CallContext) = ((⟨[], [exOne]⟩ : CallContext), Option.none) ∧
    (check_done (⟨[exOne], []⟩ : CallContext)).1 = (⟨[], []⟩ : CallContext) ∧
    (check_done (⟨[exOne], []⟩ : CallContext)).2
      = Option.some (reportText ⟨[exOne], []⟩ "Still expecting more function calls"
          Option.none) :=
  ⟨(c9_check_done_iff ⟨[], [exOne]⟩).1 rfl, (c9_check_done_iff ⟨[exOne], []⟩).2 (by decide)⟩

/-- C10: wildcard capture is not atomic with the match outcome.  Positional
case: `f.expect(wildcard, 1)` called as `f(5, 2)` fails with "Argument
mismatch", yet wildcard cell 0 (at the non-mismatching position 0) has been
overwritten from `None` to `5`.  Keyword case: `f.expect(a = wildcard,
b = 1)` called as `f(a = 9, b = 2)` fails with "Keyword argument mismatch",
yet wildcard cell 1 has been overwritten from `None` to `9`. -/
theorem c10_wildcard_mutated_before_error :
    store0 0 = Value.none ∧
    (call ⟨[exWild], []⟩ store0 fMock [Value.int 5, Value.int 2] []).2.2
      = CallResult.mockError (reportText ⟨[exWild], []⟩ "Argument mismatch"
          (Option.some { fcn := fMock, args := [Value.int 5, Value.int 2], kwargs := [] })) ∧
    (call ⟨[exWild], []⟩ store0 fMock [Value.int 5, Value.int 2] []).2.1 0 = Value.int 5 ∧
    store0 1 = Value.none ∧
    (call ⟨[exKwWild], []⟩ store0 fMock [] [("a", Value.int 9), ("b", Value.int 2)]).2.2
      = CallResult.mockError (reportText ⟨[exKwWild], []⟩ "Keyword argument mismatch"
          (Option.some
            { fcn := fMock, args := [],
              kwargs := [("a", Value.int 9), ("b", Value.int 2)] })) ∧
    (call ⟨[exKwWild], []⟩ store0 fMock [] [("a", Value.int 9), ("b", Value.int 2)]).2.1 1
      = Value.int 9 := by
  refine ⟨rfl, ?_, rfl, rfl, ?_, rfl⟩ <;> rfl
